import Mathlib

/-!
Verification of the fish-stocking lifecycle engine of the biip-zuvinimas-api
repository: the status derivation function (src/utils/functions.ts), the
lifecycle operations register / updateRegistration / cancel
(fishStockings service) and the batch reconciler
(src/services/fishBatches.service.ts).

Timestamps are modelled as natural numbers counting milliseconds since the
Unix epoch.  The date-fns helpers startOfDay, endOfDay and add operate on
the local calendar day; the model fixes the UTC offset to zero, so a
calendar day is a half-open block of 86400000 milliseconds.  JavaScript
null/undefined option fields are modelled with Option; a missing list
(undefined) is Option (List _) = none, which matters because the source
uses optional chaining (batches?.some) and lodash isEmpty.
-/

namespace Zuvinimas

/-- Milliseconds in one calendar day. -/
def msPerDay : Nat := 86400000

/-- date-fns startOfDay: first millisecond of the calendar day containing t. -/
def startOfDay (t : Nat) : Nat := t / msPerDay * msPerDay

/-- date-fns endOfDay: last millisecond (23:59:59.999) of the calendar day containing t. -/
def endOfDay (t : Nat) : Nat := startOfDay t + (msPerDay - 1)

/-- date-fns add with a whole number of days. -/
def addDays (t : Nat) (d : Nat) : Nat := t + d * msPerDay

/-- Row of the single-row settings table (settings.service.ts). -/
structure Setting where
  minTimeTillFishStocking : Nat
  maxTimeForRegistration : Nat
deriving DecidableEq

/-- One entry of the signatures array of a fish stocking. -/
structure Signature where
  organization : String
  signedBy : String
  signature : String
deriving DecidableEq

/-- Row of the fish_batches table (fishBatches.service.ts).  reviewAmount
is nullable; none models SQL NULL, which is what the review check
compares against (reviewAmount === null). -/
structure FishBatch where
  id : Nat
  fishStocking : Nat
  fishType : Nat
  fishAge : Nat
  amount : Nat
  weight : Option Nat := none
  reviewAmount : Option Nat := none
  reviewWeight : Option Nat := none
deriving DecidableEq

/-- Row of the fish_stockings table, restricted to the fields the lifecycle
engine reads or writes. -/
structure FishStocking where
  id : Nat
  eventTime : Nat
  canceledAt : Option Nat := none
  signatures : Option (List Signature) := none
  assignedTo : Nat
  tenant : Option Nat := none
  stockingCustomer : Option Nat := none
  phone : Option String := none
deriving DecidableEq

/-- The six lifecycle statuses (FishStockingStatus in the types module). -/
inductive FishStockingStatus
  | UPCOMING
  | ONGOING
  | NOT_FINISHED
  | FINISHED
  | INSPECTED
  | CANCELED
deriving DecidableEq

/-- lodash isEmpty on a nullable array: true for null/undefined and for []. -/
def isEmptyOpt {α : Type} : Option (List α) → Bool
  | none => true
  | some l => l.isEmpty

/-- functions.ts isCanceled: truthiness of canceledAt. -/
def isCanceled (fs : FishStocking) : Bool :=
  fs.canceledAt.isSome

/-- functions.ts isReviewed.  batches?.some(b => b.reviewAmount === null)
is undefined when the list is missing, and !undefined is true, so a
missing list counts as reviewed; likewise an empty list. -/
def isReviewed (_fs : FishStocking) (batches : Option (List FishBatch)) : Bool :=
  match batches with
  | none => true
  | some bs => !(bs.any (fun b => b.reviewAmount.isNone))

/-- functions.ts isInspected: reviewed and signatures non-empty. -/
def isInspected (fs : FishStocking) (batches : Option (List FishBatch)) : Bool :=
  isReviewed fs batches && !(isEmptyOpt fs.signatures)

/-- functions.ts isOngoing: now strictly after the start of the event day
and strictly before the end of the day maxTimeForRegistration days
after the event time. -/
def isOngoing (fs : FishStocking) (settings : Setting) (now : Nat) : Bool :=
  decide (startOfDay fs.eventTime < now) &&
    decide (now < endOfDay (addDays fs.eventTime settings.maxTimeForRegistration))

/-- functions.ts isUpcoming: now strictly before the start of the event day. -/
def isUpcoming (fs : FishStocking) (now : Nat) : Bool :=
  decide (now < startOfDay fs.eventTime)

/-- functions.ts isNotFinished: now strictly after the end of the day
maxTimeForRegistration days after the event time. -/
def isNotFinished (fs : FishStocking) (settings : Setting) (now : Nat) : Bool :=
  decide (endOfDay (addDays fs.eventTime settings.maxTimeForRegistration) < now)

/-- functions.ts getStatus: the six-branch priority chain; the unused
moleculer context parameter is dropped.  Returns none when no branch
matches (the null fall-through of the source). -/
def getStatus (fs : FishStocking) (batches : Option (List FishBatch))
    (settings : Setting) (now : Nat) : Option FishStockingStatus :=
  if isCanceled fs then some FishStockingStatus.CANCELED
  else if isInspected fs batches then some FishStockingStatus.INSPECTED
  else if isReviewed fs batches then some FishStockingStatus.FINISHED
  else if isOngoing fs settings now then some FishStockingStatus.ONGOING
  else if isUpcoming fs now then some FishStockingStatus.UPCOMING
  else if isNotFinished fs settings now then some FishStockingStatus.NOT_FINISHED
  else none

/-- Rows of the fish_batches table belonging to one stocking event. -/
def eventBatches (db : List FishBatch) (evId : Nat) : List FishBatch :=
  db.filter (fun b => b.fishStocking == evId)

/-- The batches argument the status populate hands to getStatus: the
per-event group from batchesByStocking, which is undefined (none) when
the event has no batch rows. -/
def batchesByStocking (db : List FishBatch) (evId : Nat) : Option (List FishBatch) :=
  let l := eventBatches db evId
  if l.isEmpty then none else some l

/-- Derived status of an event against the batch table, as computed by the
virtual status field populate of the fishStockings service. -/
def statusOf (fs : FishStocking) (db : List FishBatch) (settings : Setting)
    (now : Nat) : Option FishStockingStatus :=
  getStatus fs (batchesByStocking db fs.id) settings now

/-- Stable machine-readable error codes raised by the lifecycle operations
(FishStockingErrorMessages in the types module, plus the NO_RIGHTS
authorization error and generic persistence failures). -/
inductive FSError
  | INVALID_ID
  | INVALID_STATUS
  | INVALID_EVENT_TIME
  | INVALID_ASSIGNED_TO_ID
  | ASSIGNED_TO_NOT_DEFINED
  | INVALID_FISH_TYPE
  | INVALID_STOCKING_CUSTOMER
  | INVALID_FISH_ORIGIN
  | NO_RIGHTS
  | COULD_NOT_UPDATE
  | ENTITY_NOT_FOUND
  | TYPE_ERROR
deriving DecidableEq

/-- functions.ts isTimeBeforeReview: the difference between the requested
event time and the wall clock must be at least minTimeTillFishStocking
days; the subtraction is done in Int because the event may lie in the
past. -/
def isTimeBeforeReview (settings : Setting) (now eventTime : Nat) : Bool :=
  decide ((eventTime : Int) - (now : Int) ≥ 24 * 60 * 60 * 1000 * (settings.minTimeTillFishStocking : Int))

/-- Session data the lifecycle operations read: the tenant profile of the
session (none for a freelancer session) and the connected user id. -/
structure SessionMeta where
  profile : Option Nat := none
  userId : Nat
deriving DecidableEq

/-- functions.ts validateAssignedTo.  For a tenant session the parameter is
required (ASSIGNED_TO_NOT_DEFINED otherwise); the tenantUsers.find call
returns an array, which is always truthy in JavaScript, so the
INVALID_ASSIGNED_TO_ID branch is unreachable and the given id is
accepted.  For a freelancer session the parameter is overwritten with
the connected user id.  Returns the (possibly rewritten) parameter. -/
def validateAssignedTo (meta : SessionMeta) (assignedTo : Option Nat) :
    Except FSError (Option Nat) :=
  match meta.profile with
  | some _ =>
    match assignedTo with
    | some a => Except.ok (some a)
    | none => Except.error FSError.ASSIGNED_TO_NOT_DEFINED
  | none => Except.ok (some meta.userId)

/-- The register action of the fishStockings service.  The event-time
window is checked first; the later validators (fish type and age,
stocking customer, fish origin) touch reference data that is external
to the engine, so their outcomes are supplied as oracle booleans; each
failure raises its own distinct error code, never INVALID_EVENT_TIME.
Persistence effects are not modelled, only the outcome. -/
def register (settings : Setting) (now : Nat) (eventTime : Nat)
    (meta : SessionMeta) (assignedTo : Option Nat)
    (fishDataOk stockingCustomerOk fishOriginOk : Bool) : Except FSError Unit :=
  if !(isTimeBeforeReview settings now eventTime) then Except.error FSError.INVALID_EVENT_TIME
  else
    match validateAssignedTo meta assignedTo with
    | Except.error e => Except.error e
    | Except.ok _ =>
      if !fishDataOk then Except.error FSError.INVALID_FISH_TYPE
      else if !stockingCustomerOk then Except.error FSError.INVALID_STOCKING_CUSTOMER
      else if !fishOriginOk then Except.error FSError.INVALID_FISH_ORIGIN
      else Except.ok ()

/-- Date.prototype.toDateString keeps only the calendar date; stored and
re-parsed it denotes the first millisecond of the current day. -/
def toDateString (t : Nat) : Nat := startOfDay t

/-- Result of the cancel action: the row was either removed outright or
rewritten with a canceledAt stamp. -/
inductive CancelOutcome
  | deleted
  | canceled (fs : FishStocking)
deriving DecidableEq

/-- The cancel action of the fishStockings service.  The INVALID_ID branch
for an unresolvable id is omitted: the model receives the resolved row.
The authorization guard (canProfileModifyFishStocking) runs before the
status check and is supplied as an oracle boolean. -/
def cancel (fs : FishStocking) (db : List FishBatch) (settings : Setting)
    (now : Nat) (authorized : Bool) : Except FSError CancelOutcome :=
  let status := statusOf fs db settings now
  if !authorized then Except.error FSError.NO_RIGHTS
  else if status ≠ some FishStockingStatus.UPCOMING ∧
      status ≠ some FishStockingStatus.ONGOING ∧
      status ≠ some FishStockingStatus.NOT_FINISHED then
    Except.error FSError.INVALID_STATUS
  else if status = some FishStockingStatus.UPCOMING then
    Except.ok CancelOutcome.deleted
  else
    Except.ok (CancelOutcome.canceled { fs with canceledAt := some (toDateString now) })

/-- One desired batch entry of an update request: an entry with an id is an
intended update, one without is an intended create. -/
structure DesiredBatch where
  id : Option Nat := none
  fishType : Nat
  fishAge : Nat
  amount : Nat
  weight : Option Nat := none
  reviewAmount : Option Nat := none
  reviewWeight : Option Nat := none
deriving DecidableEq

/-- JavaScript truthiness of the id of a desired entry (batch.id && ...):
present and non-zero. -/
def hasId (d : DesiredBatch) : Bool :=
  match d.id with
  | some i => i != 0
  | none => false

/-- batches?.find(batch => batch.id && existingBatch.id == batch.id):
whether a desired entry with a truthy id matches the given row id;
false when the desired list is missing (undefined). -/
def desiredMatches (ds : Option (List DesiredBatch)) (rid : Nat) : Bool :=
  match ds with
  | none => false
  | some l => l.any (fun d => hasId d && d.id == some rid)

/-- Partial-field update of a batch row (moleculer updateEntity): required
fields overwrite, optional fields absent from the request leave the
column untouched.  Id and owning event are not part of the request and
stay unchanged. -/
def applyBatchUpdate (b : FishBatch) (d : DesiredBatch) : FishBatch :=
  { b with
    fishType := d.fishType
    fishAge := d.fishAge
    amount := d.amount
    weight := match d.weight with | some w => some w | none => b.weight
    reviewAmount := match d.reviewAmount with | some v => some v | none => b.reviewAmount
    reviewWeight := match d.reviewWeight with | some v => some v | none => b.reviewWeight }

/-- Fresh row created for a desired entry without id (createEntity with the
event id attached); the id comes from the database sequence. -/
def createBatchRow (evId : Nat) (newId : Nat) (d : DesiredBatch) : FishBatch :=
  { id := newId, fishStocking := evId, fishType := d.fishType, fishAge := d.fishAge,
    amount := d.amount, weight := d.weight, reviewAmount := d.reviewAmount,
    reviewWeight := d.reviewWeight }

/-- fishBatches.service.ts deleteExistingBatches: every persisted row of
the event whose id is not matched by a desired entry with a truthy id
is removed (all of them when the desired list is missing).  The
removeEntity calls are independent promises: a failing one (oracle
removeFails) leaves its row in place but the others still apply.
Returns the surviving table and whether every delete succeeded. -/
def deleteExistingBatches (db : List FishBatch) (evId : Nat)
    (ds : Option (List DesiredBatch)) (removeFails : Nat → Bool) :
    List FishBatch × Bool :=
  ((db.filter (fun b =>
      !(b.fishStocking == evId && !(desiredMatches ds b.id) && !(removeFails b.id)))),
   ((db.filter (fun b => b.fishStocking == evId && !(desiredMatches ds b.id))).all
      (fun b => !(removeFails b.id))))

/-- fishBatches.service.ts createOrUpdateBatches: each desired entry with a
truthy id updates the row carrying that id (failing — oracle
updateFails — or hitting no row marks the whole call failed), and each
entry without id creates a fresh row owned by the event, drawing ids
from the nextId counter (a failing create — oracle createFails — adds
no row).  The promises are independent, so a failure does not stop the
remaining operations; the fold is a linearization of the Promise.all.
Returns the table, the next free id and whether every operation
succeeded. -/
def createOrUpdateBatches (db : List FishBatch) (evId : Nat)
    (ds : List DesiredBatch) (nextId : Nat) (updateFails createFails : Nat → Bool) :
    List FishBatch × Nat × Bool :=
  match ds with
  | [] => (db, nextId, true)
  | d :: rest =>
    if hasId d then
      let i := d.id.getD 0
      if updateFails i || !(db.any (fun b => b.id == i)) then
        let r := createOrUpdateBatches db evId rest nextId updateFails createFails
        (r.1, r.2.1, false)
      else
        createOrUpdateBatches (db.map (fun b => if b.id == i then applyBatchUpdate b d else b))
          evId rest nextId updateFails createFails
    else
      if createFails nextId then
        let r := createOrUpdateBatches db evId rest nextId updateFails createFails
        (r.1, r.2.1, false)
      else
        createOrUpdateBatches (db ++ [createBatchRow evId nextId d]) evId rest (nextId + 1)
          updateFails createFails

/-- The updateBatches / updateRegisteredBatches / reviewBatches actions of
the fishBatches service: first the delete pass, then — only if it
succeeded, since its rejection aborts the action — the create/update
pass.  A missing desired list makes Promise.all reject with a TypeError
after the delete pass has already removed every row of the event. -/
def updateBatches (db : List FishBatch) (evId : Nat)
    (ds : Option (List DesiredBatch)) (nextId : Nat)
    (removeFails updateFails createFails : Nat → Bool) :
    List FishBatch × Nat × Bool :=
  let del := deleteExistingBatches db evId ds removeFails
  if !del.2 then (del.1, nextId, false)
  else
    match ds with
    | none => (del.1, nextId, false)
    | some l => createOrUpdateBatches del.1 evId l nextId updateFails createFails

/-- Request body of the updateRegistration action, restricted to the
modelled fields; absent optional fields are none. -/
structure UpdateParams where
  id : Nat
  eventTime : Option Nat := none
  assignedTo : Option Nat := none
  phone : Option String := none
  stockingCustomer : Option Nat := none
  batches : Option (List DesiredBatch) := none
deriving DecidableEq

/-- moleculer updateEntity with the full request body: fields present in
the request overwrite the row, absent ones keep their value. -/
def applyParams (fs : FishStocking) (p : UpdateParams) (assignedTo : Option Nat) :
    FishStocking :=
  { fs with
    eventTime := p.eventTime.getD fs.eventTime
    assignedTo := assignedTo.getD fs.assignedTo
    phone := match p.phone with | some s => some s | none => fs.phone
    stockingCustomer := match p.stockingCustomer with | some c => some c | none => fs.stockingCustomer }

/-- ctx.params.assignedTo is truthy and differs from the stored value;
computed before validateAssignedTo rewrites the parameter. -/
def assignedToChanged (fs : FishStocking) (p : UpdateParams) : Bool :=
  match p.assignedTo with
  | some a => a != 0 && a != fs.assignedTo
  | none => false

/-- Tail of the UPCOMING branch of updateRegistration: remaining
validators, full-body update, batch reconciliation.  A failure inside
the reconciler surfaces as a generic persistence error after its
partial effects. -/
def updateRegistrationUpcoming (fs : FishStocking) (db : List FishBatch)
    (p : UpdateParams) (_meta : SessionMeta) (assignedTo : Option Nat)
    (fishDataOk stockingCustomerOk : Bool) (nextId : Nat)
    (removeFails updateFails createFails : Nat → Bool) :
    Except FSError (FishStocking × List FishBatch) :=
  if p.batches.isSome && !fishDataOk then Except.error FSError.INVALID_FISH_TYPE
  else if !stockingCustomerOk then Except.error FSError.INVALID_STOCKING_CUSTOMER
  else
    let fs1 := applyParams fs p assignedTo
    let rec1 := updateBatches db fs.id p.batches nextId removeFails updateFails createFails
    if !rec1.2.2 then Except.error FSError.TYPE_ERROR
    else Except.ok (fs1, rec1.1)

/-- The updateRegistration action of the fishStockings service.  Status is
re-derived from the row; only UPCOMING and ONGOING pass.  In ONGOING
with a changed assignedTo, only that one field is written (a failing
write — oracle updFails — is caught and rethrown as the generic
COULD_NOT_UPDATE); in ONGOING otherwise nothing is written at all and
the unchanged row is returned.  In UPCOMING the event time is
re-validated, fish data and stocking customer are checked (oracles, as
in register), the full body is applied and the batches go through the
reconciler.  The INVALID_ID branch is omitted: the model receives the
resolved row.  Returns the row and the batch table after the call. -/
def updateRegistration (fs : FishStocking) (db : List FishBatch)
    (settings : Setting) (now : Nat) (p : UpdateParams) (meta : SessionMeta)
    (authorized : Bool) (updFails : Bool) (fishDataOk stockingCustomerOk : Bool)
    (nextId : Nat) (removeFails updateFails createFails : Nat → Bool) :
    Except FSError (FishStocking × List FishBatch) :=
  let status := statusOf fs db settings now
  if status ≠ some FishStockingStatus.UPCOMING ∧
      status ≠ some FishStockingStatus.ONGOING then
    Except.error FSError.INVALID_STATUS
  else if !authorized then Except.error FSError.NO_RIGHTS
  else
    let changed := assignedToChanged fs p
    match validateAssignedTo meta p.assignedTo with
    | Except.error e => Except.error e
    | Except.ok assignedTo =>
      if status = some FishStockingStatus.ONGOING && changed then
        if updFails then Except.error FSError.COULD_NOT_UPDATE
        else Except.ok ({ fs with assignedTo := assignedTo.getD fs.assignedTo }, db)
      else if status = some FishStockingStatus.UPCOMING then
        match p.eventTime with
        | some et =>
          if !(isTimeBeforeReview settings now et) then Except.error FSError.INVALID_EVENT_TIME
          else updateRegistrationUpcoming fs db p meta assignedTo fishDataOk
            stockingCustomerOk nextId removeFails updateFails createFails
        | none =>
          updateRegistrationUpcoming fs db p meta assignedTo fishDataOk
            stockingCustomerOk nextId removeFails updateFails createFails
      else Except.ok (fs, db)

/-- Concrete batch with no review data yet. -/
def exBatchUnreviewed : FishBatch :=
  { id := 1, fishStocking := 1, fishType := 1, fishAge := 1, amount := 100 }

/-- Concrete batch whose review amount is filled. -/
def exBatchReviewed : FishBatch :=
  { id := 2, fishStocking := 1, fishType := 1, fishAge := 1, amount := 50,
    reviewAmount := some 50 }

/-- Concrete event dated 2024-03-01T00:00Z (epoch day 19783). -/
def exEventMar : FishStocking :=
  { id := 1, eventTime := 19783 * msPerDay, assignedTo := 7 }

/-- Concrete settings: two days of lead time, five days for review. -/
def exSettings : Setting :=
  { minTimeTillFishStocking := 2, maxTimeForRegistration := 5 }

/-- Noon of 2024-03-04, inside the review window of exEventMar. -/
def nowOngoing : Nat := 19786 * msPerDay + 43200000

/-- Noon of 2024-03-10, past the review window of exEventMar. -/
def nowNotFinished : Nat := 19792 * msPerDay + 43200000

/-- Concrete batch table holding the one unreviewed batch of exEventMar. -/
def exDb : List FishBatch := [exBatchUnreviewed]

/-- Concrete freelancer session. -/
def exMetaFreelancer : SessionMeta := { profile := none, userId := 7 }

/-- Concrete tenant session. -/
def exMetaTenant : SessionMeta := { profile := some 3, userId := 7 }

/-- Concrete update request: keeps the stored assignedTo but asks to move
the event to 2024-03-18. -/
def exUpdateParams : UpdateParams :=
  { id := 1, eventTime := some (19800 * msPerDay), assignedTo := some 7 }

/-- Oracle describing persistence calls that never fail. -/
def noFail : Nat → Bool := fun _ => false

/-- Batch table used by the reconciler examples: event 5 owns rows 1 and 2. -/
def cexDb : List FishBatch :=
  [{ id := 1, fishStocking := 5, fishType := 1, fishAge := 1, amount := 10 },
   { id := 2, fishStocking := 5, fishType := 2, fishAge := 1, amount := 20 }]

/-- Desired list keeping only row 2 (an intended update). -/
def cexDesired : List DesiredBatch :=
  [{ id := some 2, fishType := 2, fishAge := 1, amount := 25 }]

/-- Desired list updating row 2 and creating one new batch. -/
def cexDesired2 : List DesiredBatch :=
  [{ id := some 2, fishType := 2, fishAge := 1, amount := 25 },
   { fishType := 3, fishAge := 2, amount := 7 }]

/-- Projection of the batch table to (id, owner) pairs: updates rewrite
data fields only, so they leave this projection fixed. -/
def batchKeys (db : List FishBatch) : List (Nat × Nat) :=
  db.map (fun b => (b.id, b.fishStocking))

/-- Day boundaries never cross: the start of the event day is at most the
end of the day maxTimeForRegistration days later. -/
theorem startOfDay_le_endOfDay_addDays (t d : Nat) :
    startOfDay t ≤ endOfDay (addDays t d) := by
  simp only [endOfDay, startOfDay, addDays, msPerDay]
  omega

/-- C1: for every stocking event whose canceledAt is set, getStatus returns
CANCELED, regardless of the batch list, the settings and the current
time — cancellation is terminal and absorbing. -/
theorem getStatus_canceled_absorbing (fs : FishStocking)
    (batches : Option (List FishBatch)) (settings : Setting) (now : Nat)
    (h : fs.canceledAt ≠ none) :
    getStatus fs batches settings now = some FishStockingStatus.CANCELED := by
  have hc : isCanceled fs = true := by
    simp [isCanceled, Option.isSome_iff_ne_none, h]
  simp [getStatus, hc]

/-- Witness for C1 at a concrete canceled event. -/
theorem getStatus_canceled_absorbing_witness :
    ({ exEventMar with canceledAt := some (19785 * msPerDay) } : FishStocking).canceledAt ≠ none ∧
      getStatus { exEventMar with canceledAt := some (19785 * msPerDay) }
        (some [exBatchUnreviewed]) exSettings nowOngoing =
        some FishStockingStatus.CANCELED :=
  ⟨by decide,
   getStatus_canceled_absorbing _ _ _ _ (by decide)⟩

/-- C2: getStatus returns one of the six statuses (never none) for every
input whose current time is not the exact first millisecond of the
event day nor the exact last millisecond of the day
maxTimeForRegistration days later — the only inputs on which the
documented null fall-through of the source can fire. -/
theorem getStatus_total (fs : FishStocking) (batches : Option (List FishBatch))
    (settings : Setting) (now : Nat)
    (h1 : now ≠ startOfDay fs.eventTime)
    (h2 : now ≠ endOfDay (addDays fs.eventTime settings.maxTimeForRegistration)) :
    (getStatus fs batches settings now).isSome = true := by
  unfold getStatus
  split
  · rfl
  · split
    · rfl
    · split
      · rfl
      · split
        · rfl
        · split
          · rfl
          · split
            · rfl
            · rename_i hOn hUp hNf
              exfalso
              simp only [isOngoing, isUpcoming, isNotFinished, Bool.and_eq_true,
                decide_eq_true_eq, not_and] at hOn hUp hNf
              omega

/-- Witness for C2 at a concrete event and time away from both boundaries. -/
theorem getStatus_total_witness :
    nowOngoing ≠ startOfDay exEventMar.eventTime ∧
      nowOngoing ≠ endOfDay (addDays exEventMar.eventTime exSettings.maxTimeForRegistration) ∧
      (getStatus exEventMar (some [exBatchUnreviewed]) exSettings nowOngoing).isSome = true :=
  ⟨by decide, by decide,
   getStatus_total _ _ _ _ (by decide) (by decide)⟩

/-- C3: for an event that is neither canceled nor fully reviewed, the
status is ONGOING exactly when now lies strictly after the start of the
event day and strictly before the end of the day
maxTimeForRegistration days later, and NOT_FINISHED exactly when now
lies strictly after that end of day. -/
theorem getStatus_window_iff (fs : FishStocking)
    (batches : Option (List FishBatch)) (settings : Setting) (now : Nat)
    (hc : fs.canceledAt = none) (hr : isReviewed fs batches = false) :
    (getStatus fs batches settings now = some FishStockingStatus.ONGOING ↔
      startOfDay fs.eventTime < now ∧
        now < endOfDay (addDays fs.eventTime settings.maxTimeForRegistration)) ∧
    (getStatus fs batches settings now = some FishStockingStatus.NOT_FINISHED ↔
      endOfDay (addDays fs.eventTime settings.maxTimeForRegistration) < now) := by
  have hsle := startOfDay_le_endOfDay_addDays fs.eventTime settings.maxTimeForRegistration
  have hc1 : isCanceled fs = false := by simp [isCanceled, hc]
  have hi : isInspected fs batches = false := by simp [isInspected, hr]
  simp only [getStatus, hc1, hi, hr, Bool.false_eq_true, if_false,
    isOngoing, isUpcoming, isNotFinished, Bool.and_eq_true, decide_eq_true_eq]
  by_cases hOn : startOfDay fs.eventTime < now ∧
      now < endOfDay (addDays fs.eventTime settings.maxTimeForRegistration)
  · rw [if_pos hOn]
    refine ⟨by simp [hOn], ?_⟩
    constructor
    · intro hx
      exact absurd (Option.some.inj hx) (by decide)
    · intro hx
      omega
  · rw [if_neg hOn]
    by_cases hUp : now < startOfDay fs.eventTime
    · rw [if_pos hUp]
      constructor
      · constructor
        · intro hx
          exact absurd (Option.some.inj hx) (by decide)
        · intro hx
          omega
      · constructor
        · intro hx
          exact absurd (Option.some.inj hx) (by decide)
        · intro hx
          omega
    · rw [if_neg hUp]
      by_cases hNf : endOfDay (addDays fs.eventTime settings.maxTimeForRegistration) < now
      · rw [if_pos hNf]
        constructor
        · constructor
          · intro hx
            exact absurd (Option.some.inj hx) (by decide)
          · intro hx
            omega
        · simp [hNf]
      · rw [if_neg hNf]
        constructor
        · constructor
          · intro hx
            exact absurd hx (by simp)
          · intro hx
            omega
        · constructor
          · intro hx
            exact absurd hx (by simp)
          · intro hx
            omega

/-- Witness for C3: with eventTime 2024-03-01 and maxTimeForRegistration 5,
the status is ONGOING at noon of 2024-03-04 and NOT_FINISHED at noon of
2024-03-10. -/
theorem getStatus_window_iff_witness :
    getStatus exEventMar (some [exBatchUnreviewed]) exSettings nowOngoing =
        some FishStockingStatus.ONGOING ∧
      getStatus exEventMar (some [exBatchUnreviewed]) exSettings nowNotFinished =
        some FishStockingStatus.NOT_FINISHED :=
  ⟨(getStatus_window_iff exEventMar (some [exBatchUnreviewed]) exSettings nowOngoing
      (by decide) (by decide)).1.mpr (by decide),
   (getStatus_window_iff exEventMar (some [exBatchUnreviewed]) exSettings nowNotFinished
      (by decide) (by decide)).2.mpr (by decide)⟩

/-- Helper: a non-canceled, fully reviewed event is FINISHED, or INSPECTED
when signatures are non-empty. -/
theorem getStatus_of_reviewed (fs : FishStocking)
    (batches : Option (List FishBatch)) (settings : Setting) (now : Nat)
    (hc : fs.canceledAt = none) (hrev : isReviewed fs batches = true) :
    getStatus fs batches settings now =
      (if isEmptyOpt fs.signatures then some FishStockingStatus.FINISHED
       else some FishStockingStatus.INSPECTED) := by
  have hc1 : isCanceled fs = false := by simp [isCanceled, hc]
  by_cases hs : isEmptyOpt fs.signatures = true
  · have hi : isInspected fs batches = false := by simp [isInspected, hs]
    simp [getStatus, hc1, hi, hrev, hs]
  · have hi : isInspected fs batches = true := by
      simp only [isInspected, hrev, Bool.true_and, Bool.not_eq_true']
      exact Bool.eq_false_iff.mpr hs
    simp [getStatus, hc1, hi, hs]

/-- Helper: a fully reviewed event, canceled or not, is never UPCOMING,
ONGOING or NOT_FINISHED. -/
theorem getStatus_of_reviewed_not_window (fs : FishStocking)
    (batches : Option (List FishBatch)) (settings : Setting) (now : Nat)
    (hrev : isReviewed fs batches = true) :
    getStatus fs batches settings now ≠ some FishStockingStatus.UPCOMING ∧
      getStatus fs batches settings now ≠ some FishStockingStatus.ONGOING ∧
      getStatus fs batches settings now ≠ some FishStockingStatus.NOT_FINISHED := by
  by_cases hc : fs.canceledAt = none
  · rw [getStatus_of_reviewed fs batches settings now hc hrev]
    by_cases hs : isEmptyOpt fs.signatures = true
    · rw [if_pos hs]
      refine ⟨?_, ?_, ?_⟩ <;> · intro hx; exact absurd (Option.some.inj hx) (by decide)
    · rw [if_neg hs]
      refine ⟨?_, ?_, ?_⟩ <;> · intro hx; exact absurd (Option.some.inj hx) (by decide)
  · rw [getStatus_canceled_absorbing fs batches settings now hc]
    refine ⟨?_, ?_, ?_⟩ <;> · intro hx; exact absurd (Option.some.inj hx) (by decide)

/-- A list of batches all carrying a review amount makes isReviewed true. -/
theorem isReviewed_of_all_filled (fs : FishStocking) (bs : List FishBatch)
    (hr : ∀ b ∈ bs, b.reviewAmount ≠ none) :
    isReviewed fs (some bs) = true := by
  simp only [isReviewed, Bool.not_eq_true']
  rw [List.any_eq_false]
  intro b hb
  simp [Option.isNone_iff_eq_none, hr b hb]

/-- C9 (counterexample to the claim as stated): a canceled event whose
batches are all reviewed derives status CANCELED, which is neither
FINISHED nor INSPECTED. -/
theorem getStatus_allReviewed_canceled_cex :
    getStatus { exEventMar with canceledAt := some (19785 * msPerDay) }
        (some [exBatchReviewed]) exSettings nowOngoing =
        some FishStockingStatus.CANCELED ∧
      getStatus { exEventMar with canceledAt := some (19785 * msPerDay) }
        (some [exBatchReviewed]) exSettings nowOngoing ≠
        some FishStockingStatus.FINISHED ∧
      getStatus { exEventMar with canceledAt := some (19785 * msPerDay) }
        (some [exBatchReviewed]) exSettings nowOngoing ≠
        some FishStockingStatus.INSPECTED := by
  refine ⟨by decide, by decide, by decide⟩

/-- C9 (amended): when every batch has reviewAmount populated, a
non-canceled event derives FINISHED, or INSPECTED exactly when
signatures are non-empty; and whatever canceledAt holds, the status is
never UPCOMING, ONGOING or NOT_FINISHED. -/
theorem getStatus_allReviewed (fs : FishStocking) (bs : List FishBatch)
    (settings : Setting) (now : Nat)
    (hr : ∀ b ∈ bs, b.reviewAmount ≠ none) :
    (fs.canceledAt = none →
      getStatus fs (some bs) settings now =
        (if isEmptyOpt fs.signatures then some FishStockingStatus.FINISHED
         else some FishStockingStatus.INSPECTED)) ∧
      getStatus fs (some bs) settings now ≠ some FishStockingStatus.UPCOMING ∧
      getStatus fs (some bs) settings now ≠ some FishStockingStatus.ONGOING ∧
      getStatus fs (some bs) settings now ≠ some FishStockingStatus.NOT_FINISHED := by
  have hrev := isReviewed_of_all_filled fs bs hr
  exact ⟨fun hc => getStatus_of_reviewed fs (some bs) settings now hc hrev,
    getStatus_of_reviewed_not_window fs (some bs) settings now hrev⟩

/-- Witness for C9 at a concrete event with one reviewed batch. -/
theorem getStatus_allReviewed_witness :
    getStatus exEventMar (some [exBatchReviewed]) exSettings nowOngoing =
        (if isEmptyOpt exEventMar.signatures then some FishStockingStatus.FINISHED
         else some FishStockingStatus.INSPECTED) ∧
      getStatus exEventMar (some [exBatchReviewed]) exSettings nowOngoing ≠
        some FishStockingStatus.ONGOING :=
  ⟨(getStatus_allReviewed exEventMar [exBatchReviewed] exSettings nowOngoing
      (by decide)).1 rfl,
   (getStatus_allReviewed exEventMar [exBatchReviewed] exSettings nowOngoing
      (by decide)).2.2.1⟩

/-- C10: a non-canceled event whose batch list is missing, empty, or free
of null reviewAmount values is treated as fully reviewed: the status is
FINISHED, or INSPECTED when signatures are non-empty, regardless of
eventTime and the current time, and never UPCOMING, ONGOING or
NOT_FINISHED. -/
theorem getStatus_vacuous_review (fs : FishStocking)
    (batches : Option (List FishBatch)) (settings : Setting) (now : Nat)
    (hc : fs.canceledAt = none)
    (h : ∀ bs, batches = some bs → ∀ b ∈ bs, b.reviewAmount ≠ none) :
    getStatus fs batches settings now =
      (if isEmptyOpt fs.signatures then some FishStockingStatus.FINISHED
       else some FishStockingStatus.INSPECTED) ∧
      getStatus fs batches settings now ≠ some FishStockingStatus.UPCOMING ∧
      getStatus fs batches settings now ≠ some FishStockingStatus.ONGOING ∧
      getStatus fs batches settings now ≠ some FishStockingStatus.NOT_FINISHED := by
  have hrev : isReviewed fs batches = true := by
    match batches with
    | none => rfl
    | some bs => exact isReviewed_of_all_filled fs bs (h bs rfl)
  exact ⟨getStatus_of_reviewed fs batches settings now hc hrev,
    getStatus_of_reviewed_not_window fs batches settings now hrev⟩

/-- Witness for C10: an event with no batch rows at all, observed long
before its event day, is FINISHED rather than UPCOMING. -/
theorem getStatus_vacuous_review_witness :
    getStatus exEventMar none exSettings (19700 * msPerDay) =
        (if isEmptyOpt exEventMar.signatures then some FishStockingStatus.FINISHED
         else some FishStockingStatus.INSPECTED) ∧
      getStatus exEventMar none exSettings (19700 * msPerDay) ≠
        some FishStockingStatus.UPCOMING :=
  ⟨(getStatus_vacuous_review exEventMar none exSettings (19700 * msPerDay) rfl
      (fun _ hbs => nomatch hbs)).1,
   (getStatus_vacuous_review exEventMar none exSettings (19700 * msPerDay) rfl
      (fun _ hbs => nomatch hbs)).2.1⟩

/-- validateAssignedTo never raises the event-time error. -/
theorem validateAssignedTo_ne_invalid_time (meta : SessionMeta) (a : Option Nat) :
    validateAssignedTo meta a ≠ Except.error FSError.INVALID_EVENT_TIME := by
  unfold validateAssignedTo
  rcases meta with ⟨_ | t, u⟩ <;> rcases a with _ | v <;> simp

/-- Once the event-time window check passes, register cannot return
INVALID_EVENT_TIME. -/
theorem register_ne_invalid_time_of_ok (settings : Setting) (now eventTime : Nat)
    (meta : SessionMeta) (assignedTo : Option Nat) (f s o : Bool)
    (h : isTimeBeforeReview settings now eventTime = true) :
    register settings now eventTime meta assignedTo f s o ≠
      Except.error FSError.INVALID_EVENT_TIME := by
  unfold register
  rw [h]
  simp only [Bool.not_true, Bool.false_eq_true, if_false]
  cases hv : validateAssignedTo meta assignedTo with
  | error e =>
    intro hx
    have hx2 : (Except.error e : Except FSError Unit) =
        Except.error FSError.INVALID_EVENT_TIME := hx
    have he : e = FSError.INVALID_EVENT_TIME := by
      cases hx2
      rfl
    exact validateAssignedTo_ne_invalid_time meta assignedTo (by rw [hv, he])
  | ok a =>
    cases f <;> cases s <;> cases o <;> simp

/-- C5: register fails with INVALID_EVENT_TIME exactly when the wall clock
is less than minTimeTillFishStocking days (in milliseconds) before the
requested event time, whatever the other validators report; in
particular with minTimeTillFishStocking = 2, now = 2024-01-10 and
eventTime = 2024-01-11 registration is rejected. -/
theorem register_invalid_event_time_iff :
    (∀ (settings : Setting) (now eventTime : Nat) (meta : SessionMeta)
        (assignedTo : Option Nat) (f s o : Bool),
      register settings now eventTime meta assignedTo f s o =
          Except.error FSError.INVALID_EVENT_TIME ↔
        (eventTime : Int) - (now : Int) <
          24 * 60 * 60 * 1000 * (settings.minTimeTillFishStocking : Int)) ∧
      register exSettings (19732 * msPerDay) (19733 * msPerDay)
        exMetaFreelancer none true true true =
        Except.error FSError.INVALID_EVENT_TIME := by
  constructor
  · intro settings now eventTime meta assignedTo f s o
    by_cases h : isTimeBeforeReview settings now eventTime = true
    · constructor
      · intro hx
        exact absurd hx (register_ne_invalid_time_of_ok settings now eventTime meta assignedTo f s o h)
      · intro hx
        exfalso
        simp only [isTimeBeforeReview, decide_eq_true_eq, ge_iff_le] at h
        omega
    · have hb : isTimeBeforeReview settings now eventTime = false :=
        Bool.eq_false_iff.mpr h
      constructor
      · intro _
        have hlt : ¬ ((eventTime : Int) - (now : Int) ≥
            24 * 60 * 60 * 1000 * (settings.minTimeTillFishStocking : Int)) := by
          simpa [isTimeBeforeReview] using hb
        omega
      · intro _
        unfold register
        rw [hb]
        rfl
  · rfl

/-- C4 (counterexample to the claim as stated): cancelling a concrete
ONGOING event at noon stamps canceledAt with the start of the current
day (Date.toDateString), which is not the current time. -/
theorem cancel_stamp_cex :
    cancel exEventMar exDb exSettings nowOngoing true =
        Except.ok (CancelOutcome.canceled
          { exEventMar with canceledAt := some (startOfDay nowOngoing) }) ∧
      startOfDay nowOngoing ≠ nowOngoing := by
  exact ⟨rfl, by decide⟩

/-- C4 (amended): with the actor authorized, cancel succeeds exactly while
the derived status is UPCOMING, ONGOING or NOT_FINISHED and fails with
INVALID_STATUS otherwise; an UPCOMING event is removed outright, and an
ONGOING or NOT_FINISHED event is stamped with the current date (the
current time truncated to its day start), not the exact current time. -/
theorem cancel_spec (fs : FishStocking) (db : List FishBatch)
    (settings : Setting) (now : Nat) :
    (statusOf fs db settings now ≠ some FishStockingStatus.UPCOMING ∧
        statusOf fs db settings now ≠ some FishStockingStatus.ONGOING ∧
        statusOf fs db settings now ≠ some FishStockingStatus.NOT_FINISHED →
      cancel fs db settings now true = Except.error FSError.INVALID_STATUS) ∧
    (statusOf fs db settings now = some FishStockingStatus.UPCOMING →
      cancel fs db settings now true = Except.ok CancelOutcome.deleted) ∧
    (statusOf fs db settings now = some FishStockingStatus.ONGOING ∨
        statusOf fs db settings now = some FishStockingStatus.NOT_FINISHED →
      cancel fs db settings now true =
        Except.ok (CancelOutcome.canceled
          { fs with canceledAt := some (toDateString now) })) := by
  unfold cancel
  simp only [Bool.not_true, Bool.false_eq_true, if_false]
  refine ⟨?_, ?_, ?_⟩
  · intro h
    rw [if_pos h]
  · intro h
    rw [if_neg (by simp [h]), if_pos h]
  · intro h
    cases h with
    | inl h =>
      rw [if_neg (by simp [h]), if_neg (by simp [h])]
    | inr h =>
      rw [if_neg (by simp [h]), if_neg (by simp [h])]

/-- Witness for C4 at a concrete NOT_FINISHED event. -/
theorem cancel_spec_witness :
    cancel exEventMar exDb exSettings nowNotFinished true =
      Except.ok (CancelOutcome.canceled
        { exEventMar with canceledAt := some (toDateString nowNotFinished) }) :=
  (cancel_spec exEventMar exDb exSettings nowNotFinished).2.2 (Or.inr (by decide))

/-- C6 (counterexample to the claim as stated): on a concrete ONGOING
event, a request that asks to move eventTime (a field other than
assignedTo) does not fail — it returns success with the row and the
batches untouched, silently ignoring the change. -/
theorem updateRegistration_ongoing_ignore_cex :
    updateRegistration exEventMar exDb exSettings nowOngoing exUpdateParams
        exMetaTenant true false true true 100 noFail noFail noFail =
        Except.ok (exEventMar, exDb) ∧
      exUpdateParams.eventTime ≠ some exEventMar.eventTime ∧
      exUpdateParams.eventTime ≠ none := by
  exact ⟨rfl, by decide, by decide⟩

/-- C6 (amended): on an ONGOING event, updateRegistration only ever writes
the assignedTo field: whenever the assignedTo validator passes and the
single-field write does not fail, the call succeeds and returns the row
with at most assignedTo changed and the batch table exactly as it was;
requests touching any other field are silently ignored rather than
rejected. -/
theorem updateRegistration_ongoing_frame (fs : FishStocking)
    (db : List FishBatch) (settings : Setting) (now : Nat) (p : UpdateParams)
    (meta : SessionMeta) (a : Option Nat)
    (fishDataOk stockingCustomerOk : Bool) (nextId : Nat)
    (rf uf cf : Nat → Bool)
    (h1 : statusOf fs db settings now = some FishStockingStatus.ONGOING)
    (h2 : validateAssignedTo meta p.assignedTo = Except.ok a) :
    ∃ x : Nat, updateRegistration fs db settings now p meta true false
        fishDataOk stockingCustomerOk nextId rf uf cf =
      Except.ok ({ fs with assignedTo := x }, db) := by
  unfold updateRegistration
  rw [if_neg (by simp [h1]), h2]
  simp only [Bool.not_true, Bool.false_eq_true, if_false, h1]
  cases hch : assignedToChanged fs p with
  | true =>
    refine ⟨a.getD fs.assignedTo, ?_⟩
    simp
  | false =>
    refine ⟨fs.assignedTo, ?_⟩
    simp

/-- Witness for C6: an empty freelancer request on an ONGOING event
succeeds and leaves row and batches as they were. -/
theorem updateRegistration_ongoing_frame_witness :
    ∃ x : Nat, updateRegistration exEventMar exDb exSettings nowOngoing
        ({ id := 1 } : UpdateParams) exMetaFreelancer true false true true 100
        noFail noFail noFail =
      Except.ok ({ exEventMar with assignedTo := x }, exDb) :=
  updateRegistration_ongoing_frame exEventMar exDb exSettings nowOngoing
    ({ id := 1 } : UpdateParams) exMetaFreelancer (some 7) true true 100
    noFail noFail noFail (by decide) rfl

/-- Updating rows in place never changes the (id, owner) projection. -/
theorem batchKeys_map_update (db : List FishBatch) (i : Nat) (d : DesiredBatch) :
    batchKeys (db.map (fun b => if b.id == i then applyBatchUpdate b d else b)) =
      batchKeys db := by
  unfold batchKeys
  rw [List.map_map]
  refine List.map_congr_left (fun b _ => ?_)
  simp only [Function.comp]
  split <;> rfl

/-- With no failing persistence calls, the delete pass removes exactly the
rows of the event unmatched by the desired list and reports success. -/
theorem deleteExistingBatches_noFail (db : List FishBatch) (evId : Nat)
    (ds : Option (List DesiredBatch)) :
    deleteExistingBatches db evId ds noFail =
      (db.filter (fun b => !(b.fishStocking == evId && !(desiredMatches ds b.id))), true) := by
  unfold deleteExistingBatches noFail
  simp

/-- With no failing persistence calls and every desired id present in the
table, the create/update pass succeeds, consumes one fresh id per
id-less entry, and its (id, owner) projection is the old projection
followed by the minted pairs. -/
theorem createOrUpdateBatches_noFail (evId : Nat) (ds : List DesiredBatch) :
    ∀ (db : List FishBatch) (nextId : Nat),
      (∀ d ∈ ds, ∀ i, d.id = some i → 0 < i → ∃ b ∈ db, b.id = i) →
      (createOrUpdateBatches db evId ds nextId noFail noFail).2.2 = true ∧
        (createOrUpdateBatches db evId ds nextId noFail noFail).2.1 =
          nextId + (ds.filter (fun d => !(hasId d))).length ∧
        batchKeys (createOrUpdateBatches db evId ds nextId noFail noFail).1 =
          batchKeys db ++
            (List.range' nextId ((ds.filter (fun d => !(hasId d))).length)).map
              (fun j => (j, evId)) := by
  induction ds with
  | nil =>
    intro db nextId _
    simp [createOrUpdateBatches]
  | cons d rest ih =>
    intro db nextId h
    by_cases hid : hasId d = true
    · obtain ⟨i, hdi, hipos⟩ : ∃ i, d.id = some i ∧ 0 < i := by
        cases hdi : d.id with
        | none => simp [hasId, hdi] at hid
        | some j =>
          refine ⟨j, rfl, ?_⟩
          simp only [hasId, hdi, bne_iff_ne, ne_eq] at hid
          omega
      obtain ⟨b0, hb0, hb0i⟩ := h d (List.mem_cons_self d rest) i hdi hipos
      have hany : db.any (fun b => b.id == i) = true :=
        List.any_eq_true.mpr ⟨b0, hb0, by simp [hb0i]⟩
      have hgd : d.id.getD 0 = i := by rw [hdi]; rfl
      have hpres : ∀ d' ∈ rest, ∀ i', d'.id = some i' → 0 < i' →
          ∃ b ∈ db.map (fun b => if b.id == i then applyBatchUpdate b d else b),
            b.id = i' := by
        intro d' hd' i' hdi' hi'
        obtain ⟨b, hb, hbi⟩ := h d' (List.mem_cons_of_mem _ hd') i' hdi' hi'
        refine ⟨(if b.id == i then applyBatchUpdate b d else b),
          List.mem_map_of_mem _ hb, ?_⟩
        split <;> simp [applyBatchUpdate, hbi]
      obtain ⟨hflag, hcount, hkeys⟩ :=
        ih (db.map (fun b => if b.id == i then applyBatchUpdate b d else b)) nextId hpres
      simp only [createOrUpdateBatches, hid, if_true, hgd, noFail, Bool.false_or,
        hany, Bool.not_true, Bool.false_eq_true, if_false]
      refine ⟨hflag, ?_, ?_⟩
      · rw [hcount]
        congr 2
        simp [List.filter_cons, hid]
      · rw [hkeys, batchKeys_map_update]
        congr 3
        simp [List.filter_cons, hid]
    · have hidf : hasId d = false := Bool.eq_false_iff.mpr hid
      have hpres : ∀ d' ∈ rest, ∀ i', d'.id = some i' → 0 < i' →
          ∃ b ∈ db ++ [createBatchRow evId nextId d], b.id = i' := by
        intro d' hd' i' hdi' hi'
        obtain ⟨b, hb, hbi⟩ := h d' (List.mem_cons_of_mem _ hd') i' hdi' hi'
        exact ⟨b, List.mem_append_left _ hb, hbi⟩
      obtain ⟨hflag, hcount, hkeys⟩ :=
        ih (db ++ [createBatchRow evId nextId d]) (nextId + 1) hpres
      simp only [createOrUpdateBatches, hidf, Bool.false_eq_true, if_false, noFail]
      refine ⟨hflag, ?_, ?_⟩
      · rw [hcount]
        simp only [List.filter_cons, hidf, Bool.not_false, if_true, List.length_cons]
        omega
      · rw [hkeys]
        have hk1 : batchKeys (db ++ [createBatchRow evId nextId d]) =
            batchKeys db ++ [(nextId, evId)] := by
          simp [batchKeys, createBatchRow]
        have hlen : (List.filter (fun d => !(hasId d)) (d :: rest)).length =
            (List.filter (fun d => !(hasId d)) rest).length + 1 := by
          simp [List.filter_cons, hidf]
        rw [hk1, hlen, List.range'_succ]
        simp [List.append_assoc]

/-- A pair belongs to the projection exactly when a row of that event with
that id belongs to the table. -/
theorem mem_batchKeys (db : List FishBatch) (i evId : Nat) :
    (i, evId) ∈ batchKeys db ↔ ∃ b ∈ db, b.fishStocking = evId ∧ b.id = i := by
  unfold batchKeys
  simp only [List.mem_map, Prod.mk.injEq]
  constructor
  · rintro ⟨b, hb, hbi, hbf⟩
    exact ⟨b, hb, hbf, hbi⟩
  · rintro ⟨b, hb, hbf, hbi⟩
    exact ⟨b, hb, hbi, hbf⟩

/-- C7: with every desired id naming an existing row of the event and no
persistence failure, reconciliation succeeds and the ids of the rows
the event ends up with are exactly the desired ids plus one freshly
minted id per id-less entry — no extras, no omissions. -/
theorem updateBatches_completeness (db : List FishBatch) (evId : Nat)
    (ds : List DesiredBatch) (nextId : Nat)
    (hd : ∀ d ∈ ds, ∀ i, d.id = some i →
      0 < i ∧ ∃ b ∈ db, b.fishStocking = evId ∧ b.id = i) :
    (updateBatches db evId (some ds) nextId noFail noFail noFail).2.2 = true ∧
      ∀ i : Nat,
        ((∃ b ∈ (updateBatches db evId (some ds) nextId noFail noFail noFail).1,
            b.fishStocking = evId ∧ b.id = i) ↔
          ((∃ d ∈ ds, d.id = some i) ∨
            (nextId ≤ i ∧
              i < nextId + (ds.filter (fun d => !(hasId d))).length))) := by
  have hmatch : ∀ d ∈ ds, ∀ i, d.id = some i → desiredMatches (some ds) i = true := by
    intro d hdm i hdi
    have hip := (hd d hdm i hdi).1
    have hne : i ≠ 0 := Nat.pos_iff_ne_zero.mp hip
    unfold desiredMatches
    refine List.any_eq_true.mpr ⟨d, hdm, ?_⟩
    simp [hasId, hdi, hne]
  have hrw : updateBatches db evId (some ds) nextId noFail noFail noFail =
      createOrUpdateBatches
        (db.filter (fun b => !(b.fishStocking == evId && !(desiredMatches (some ds) b.id))))
        evId ds nextId noFail noFail := by
    unfold updateBatches
    rw [deleteExistingBatches_noFail]
    rfl
  rw [hrw]
  have hpres : ∀ d ∈ ds, ∀ i, d.id = some i → 0 < i →
      ∃ b ∈ db.filter
          (fun b => !(b.fishStocking == evId && !(desiredMatches (some ds) b.id))),
        b.id = i := by
    intro d hdm i hdi _
    obtain ⟨-, b, hb, hbf, hbi⟩ := hd d hdm i hdi
    refine ⟨b, List.mem_filter.mpr ⟨hb, ?_⟩, hbi⟩
    simp [hbi, hmatch d hdm i hdi]
  obtain ⟨hflag, -, hkeys⟩ := createOrUpdateBatches_noFail evId ds _ nextId hpres
  refine ⟨hflag, ?_⟩
  intro i
  rw [← mem_batchKeys, hkeys, List.mem_append, mem_batchKeys]
  constructor
  · rintro (⟨b, hb, hbf, hbi⟩ | hmem)
    · obtain ⟨hbdb, hkeep⟩ := List.mem_filter.mp hb
      left
      simp only [Bool.not_eq_true', Bool.and_eq_false_iff, beq_eq_false_iff_ne, ne_eq,
        Bool.not_eq_false'] at hkeep
      rcases hkeep with hne | hm
      · exact absurd hbf hne
      · rw [hbi] at hm
        have hm2 : ds.any (fun d => hasId d && d.id == some i) = true := hm
        obtain ⟨d, hdm, hdp⟩ := List.any_eq_true.mp hm2
        simp only [Bool.and_eq_true, beq_iff_eq] at hdp
        exact ⟨d, hdm, hdp.2⟩
    · right
      obtain ⟨j, hjmem, hj⟩ := List.mem_map.mp hmem
      have hjb := List.mem_range'_1.mp hjmem
      injection hj with hj1 hj2
      omega
  · rintro (⟨d, hdm, hdi⟩ | hrange)
    · left
      obtain ⟨hip, b, hb, hbf, hbi⟩ := hd d hdm i hdi
      refine ⟨b, List.mem_filter.mpr ⟨hb, ?_⟩, hbf, hbi⟩
      simp [hbi, hmatch d hdm i hdi]
    · right
      rw [List.mem_map]
      exact ⟨i, List.mem_range'_1.mpr ⟨by omega, by omega⟩, rfl⟩

/-- Witness for C7: reconciling the two-row event 5 against one update and
one create ends with exactly ids 2 and 10. -/
theorem updateBatches_completeness_witness :
    (updateBatches cexDb 5 (some cexDesired2) 10 noFail noFail noFail).2.2 = true ∧
      ∀ i : Nat,
        ((∃ b ∈ (updateBatches cexDb 5 (some cexDesired2) 10 noFail noFail noFail).1,
            b.fishStocking = 5 ∧ b.id = i) ↔
          ((∃ d ∈ cexDesired2, d.id = some i) ∨
            (10 ≤ i ∧
              i < 10 + (cexDesired2.filter (fun d => !(hasId d))).length))) :=
  updateBatches_completeness cexDb 5 cexDesired2 10 (by
    intro d hdm i hdi
    fin_cases hdm
    · cases hdi
      exact ⟨by decide, by decide⟩
    · simp at hdi)

/-- A failing update anywhere in the desired list makes the create/update
pass report failure (the other operations still run). -/
theorem createOrUpdateBatches_update_fail (evId : Nat) (ds : List DesiredBatch) :
    ∀ (db : List FishBatch) (nextId : Nat) (uf cf : Nat → Bool),
      (∃ d ∈ ds, hasId d = true ∧ uf (d.id.getD 0) = true) →
      (createOrUpdateBatches db evId ds nextId uf cf).2.2 = false := by
  induction ds with
  | nil =>
    intro db nextId uf cf h
    obtain ⟨d, hdm, -⟩ := h
    exact absurd hdm (List.not_mem_nil d)
  | cons d0 rest ih =>
    intro db nextId uf cf h
    obtain ⟨d, hdm, hhas, huf⟩ := h
    rcases List.mem_cons.mp hdm with rfl | hdrest
    · simp only [createOrUpdateBatches, hhas, if_true, huf, Bool.true_or]
    · by_cases h0 : hasId d0 = true
      · by_cases hc : (uf (d0.id.getD 0) || !(db.any (fun b => b.id == d0.id.getD 0))) = true
        · simp only [createOrUpdateBatches, h0, if_true, hc]
        · have hc1 : (uf (d0.id.getD 0) || !(db.any (fun b => b.id == d0.id.getD 0))) = false :=
            Bool.eq_false_iff.mpr hc
          simp only [createOrUpdateBatches, h0, if_true, hc1, Bool.false_eq_true, if_false]
          exact ih _ nextId uf cf ⟨d, hdrest, hhas, huf⟩
      · have h01 : hasId d0 = false := Bool.eq_false_iff.mpr h0
        by_cases hcf : cf nextId = true
        · simp only [createOrUpdateBatches, h01, Bool.false_eq_true, if_false, hcf, if_true]
        · have hcf1 : cf nextId = false := Bool.eq_false_iff.mpr hcf
          simp only [createOrUpdateBatches, h01, Bool.false_eq_true, if_false, hcf1]
          exact ih _ (nextId + 1) uf cf ⟨d, hdrest, hhas, huf⟩

/-- A failing create makes the create/update pass report failure: the
entries before the first id-less one are all updates, which never
advance the id counter, so that create is attempted with the initial
counter value, and its rejection (oracle createFails) marks the whole
pass failed while the other operations still run. -/
theorem createOrUpdateBatches_create_fail (evId : Nat) :
    ∀ (pre : List DesiredBatch) (d : DesiredBatch) (rest : List DesiredBatch)
      (db : List FishBatch) (nextId : Nat) (uf cf : Nat → Bool),
      (∀ d' ∈ pre, hasId d' = true) → hasId d = false → cf nextId = true →
      (createOrUpdateBatches db evId (pre ++ d :: rest) nextId uf cf).2.2 = false := by
  intro pre
  induction pre with
  | nil =>
    intro d rest db nextId uf cf _ hd hcf
    simp only [List.nil_append, createOrUpdateBatches, hd, Bool.false_eq_true, if_false,
      hcf, if_true]
  | cons d0 pre1 ih =>
    intro d rest db nextId uf cf hpre hd hcf
    have h0 : hasId d0 = true := hpre d0 (List.mem_cons_self d0 pre1)
    by_cases hc : (uf (d0.id.getD 0) || !(db.any (fun b => b.id == d0.id.getD 0))) = true
    · simp only [List.cons_append, createOrUpdateBatches, h0, if_true, hc]
    · have hc1 : (uf (d0.id.getD 0) || !(db.any (fun b => b.id == d0.id.getD 0))) = false :=
        Bool.eq_false_iff.mpr hc
      simp only [List.cons_append, createOrUpdateBatches, h0, if_true, hc1,
        Bool.false_eq_true, if_false]
      exact ih d rest _ nextId uf cf
        (fun d' hd' => hpre d' (List.mem_cons_of_mem d0 hd')) hd hcf

/-- C8 (counterexample to the claim as stated): with rows 1 and 2 of event
5 persisted, reconciling against the single desired entry for row 2
while the update of row 2 fails reports failure — but row 1 has already
been deleted, so the persisted batch set is not as it was before the
call. -/
theorem updateBatches_not_atomic_cex :
    (updateBatches cexDb 5 (some cexDesired) 10 noFail (fun i => i == 2) noFail).2.2 = false ∧
      (updateBatches cexDb 5 (some cexDesired) 10 noFail (fun i => i == 2) noFail).1 ≠ cexDb := by
  exact ⟨rfl, by decide⟩

/-- C8 (amended): a failing delete, a failing update, and likewise a
failing create make the whole reconciliation call report failure, but
operations that already completed are not rolled back: the call has
fan-out/fan-in join semantics, not transactional ones, and a failed
call can leave the persisted batch set different from the pre-call
state. -/
theorem updateBatches_failure_semantics :
    (∀ (db : List FishBatch) (evId : Nat) (ds : Option (List DesiredBatch))
        (nextId : Nat) (rf uf cf : Nat → Bool),
      (∃ b ∈ db, b.fishStocking = evId ∧ desiredMatches ds b.id = false ∧ rf b.id = true) →
      (updateBatches db evId ds nextId rf uf cf).2.2 = false) ∧
    (∀ (db : List FishBatch) (evId : Nat) (ds : List DesiredBatch)
        (nextId : Nat) (rf uf cf : Nat → Bool),
      (∃ d ∈ ds, hasId d = true ∧ uf (d.id.getD 0) = true) →
      (updateBatches db evId (some ds) nextId rf uf cf).2.2 = false) ∧
    (∀ (db : List FishBatch) (evId : Nat) (pre : List DesiredBatch)
        (d : DesiredBatch) (rest : List DesiredBatch) (nextId : Nat)
        (rf uf cf : Nat → Bool),
      (∀ d' ∈ pre, hasId d' = true) → hasId d = false → cf nextId = true →
      (updateBatches db evId (some (pre ++ d :: rest)) nextId rf uf cf).2.2 = false) ∧
    ((updateBatches cexDb 5 (some cexDesired) 10 noFail (fun i => i == 2) noFail).2.2 = false ∧
      (updateBatches cexDb 5 (some cexDesired) 10 noFail (fun i => i == 2) noFail).1 ≠ cexDb) ∧
    (updateBatches cexDb 5 (some cexDesired2) 10 noFail noFail (fun i => i == 10)).2.2 = false := by
  refine ⟨?_, ?_, ?_, ⟨rfl, by decide⟩, rfl⟩
  · rintro db evId ds nextId rf uf cf ⟨b, hb, hbf, hbm, hrf⟩
    have hdel2 : (deleteExistingBatches db evId ds rf).2 = false := by
      unfold deleteExistingBatches
      refine List.all_eq_false.mpr ⟨b, ?_, ?_⟩
      · exact List.mem_filter.mpr ⟨hb, by simp [hbf, hbm]⟩
      · simp [hrf]
    simp only [updateBatches]
    rw [hdel2]
    simp
  · intro db evId ds nextId rf uf cf h
    by_cases hdel : (deleteExistingBatches db evId (some ds) rf).2 = true
    · simp only [updateBatches]
      rw [hdel]
      simp only [Bool.not_true, Bool.false_eq_true, if_false]
      exact createOrUpdateBatches_update_fail evId ds _ nextId uf cf h
    · have hdel1 : (deleteExistingBatches db evId (some ds) rf).2 = false :=
        Bool.eq_false_iff.mpr hdel
      simp only [updateBatches]
      rw [hdel1]
      simp
  · intro db evId pre d rest nextId rf uf cf hpre hd hcf
    by_cases hdel : (deleteExistingBatches db evId (some (pre ++ d :: rest)) rf).2 = true
    · simp only [updateBatches]
      rw [hdel]
      simp only [Bool.not_true, Bool.false_eq_true, if_false]
      exact createOrUpdateBatches_create_fail evId pre d rest _ nextId uf cf hpre hd hcf
    · have hdel1 : (deleteExistingBatches db evId (some (pre ++ d :: rest)) rf).2 = false :=
        Bool.eq_false_iff.mpr hdel
      simp only [updateBatches]
      rw [hdel1]
      simp

end Zuvinimas
